import Mathlib

/-!
Verification of the `zapp` provisioning tool's task model and execution
engine, shallowly embedded from `src/task.rs`, `src/filesystem.rs`,
`src/config.rs` and `src/main.rs`.

External effects (filesystem, process launch, template rendering) are
modelled by a deterministic oracle `Env`; every externally visible call is
additionally recorded in an effect trace, and every `println!` in an output
line trace.  Rust panics (`unwrap` / `expect` / `assert!`) are modelled as
`Except.error`, since they abort the whole run rather than producing a
`Status`.
-/

set_option maxHeartbeats 1000000
set_option maxRecDepth 4000

namespace Zapp

/-- Execution status of a task (`enum Status` in `task.rs`). -/
inductive Status : Type where
  | Success : Status
  | Failure : Status
  | Skipped : Status
deriving DecidableEq, Repr

/-- `impl fmt::Display for Status` in `task.rs`: the literal strings printed. -/
def Status.display : Status → String
  | .Success => "SUCCESS"
  | .Failure => "FAILURE"
  | .Skipped => "SKIPPED"

/-- The template-parameter context (`tera::Context`), modelled as a
key-value list.  It is only ever passed, opaquely, to the renderer. -/
abbrev Ctx : Type := List (String × String)

/-- `config::Params`: the mutable state threaded through the traversal. -/
structure Params where
  context : Ctx
  depth : Nat
deriving DecidableEq, Repr

/-- `Params::new` in `config.rs`: depth starts at 0. -/
def Params.new (context : Ctx) : Params := ⟨context, 0⟩

/-- Externally visible calls made by leaf tasks, recorded as a trace. -/
inductive Effect : Type where
  | createDir (path : String)
  | copyFile (src dst : String)
  | symlink (src dst : String)
  | render (src : String)
  | writeFile (dst text : String)
  | setPerms (dst : String) (mode : Nat)
  | shellExec (cmd : String)
deriving DecidableEq, Repr

/-- `struct CopyTask` in `task.rs`. -/
structure CopyTask where
  src : String
  dst : String
  mode : Option Nat
deriving DecidableEq, Repr

/-- `struct SymlinkTask` in `task.rs`. -/
structure SymlinkTask where
  src : String
  dst : String
deriving DecidableEq, Repr

/-- `struct TemplateTask` in `task.rs`. -/
structure TemplateTask where
  src : String
  dst : String
  mode : Option Nat
deriving DecidableEq, Repr

/-- `struct ShellTask(String)` in `task.rs`. -/
structure ShellTask where
  cmd : String
deriving DecidableEq, Repr

/-- Deterministic oracle for the environment: path utilities
(`filesystem::expand_path`, `Path::parent`, existence checks,
`config::asset`), and the outcome of each external operation.
`shellLaunch c = none` means the interpreter could not be launched at all;
`some code` is the exit code.  `render` is the Tera renderer. -/
structure Env where
  expandPath : String → String
  parentOf : String → Option String
  isFile : String → Bool
  pathExists : String → Bool
  mkdirOk : String → Bool
  asset : String → String → String
  render : String → Ctx → Option String
  writeOk : String → Bool
  setPermsOk : String → Nat → Bool
  copyOk : String → String → Bool
  symlinkOk : String → String → Bool
  shellLaunch : String → Option Nat

/-- `filesystem::create_valid_parent`: `path.parent().unwrap()` and the
assertion / `create_dir_all(...).unwrap()` panics are `Except.error`;
on success it returns the directory-creation effects performed. -/
def create_valid_parent (env : Env) (path : String) :
    Except String (List Effect) :=
  match env.parentOf path with
  | none => .error "no parent"
  | some parent =>
    if env.isFile parent then .error "assertion failed: parent is a file"
    else if env.pathExists parent then .ok []
    else if env.mkdirOk parent then .ok [.createDir parent]
    else .error "create_dir_all failed"

/-- `filesystem::set_permissions`: with no mode it does nothing and
succeeds; with a mode it attempts `fs::set_permissions`.  Returns whether
it succeeded together with the effect attempted. -/
def set_permissions (env : Env) (path : String) (mode : Option Nat) :
    Bool × List Effect :=
  match mode with
  | none => (true, [])
  | some m => (env.setPermsOk path m, [.setPerms path m])

/-- Decimal digits of a natural number, least significant first, by fuel
(the fuel `n` always suffices for `n` itself).  Mirrors what
`u32::to_string` produces, as a digit list. -/
def decDigitsAux : Nat → Nat → List Nat
  | 0, _ => []
  | fuel + 1, n => if n = 0 then [] else n % 10 :: decDigitsAux fuel (n / 10)

/-- Decimal digits of `n`, least significant first. -/
def decDigits (n : Nat) : List Nat := decDigitsAux n n

/-- `filesystem::parse_permissions`: the config value deserializes to an
optional number `n`; the code then renders `n` back to its decimal string
and re-parses that string in radix 8 (`u32::from_str_radix(_, 8)`).  So it
succeeds exactly when every decimal digit of `n` is an octal digit, and
the value is those digits reinterpreted in base 8; otherwise it is a
load-time configuration error.  An absent value stays absent. -/
def parse_permissions (mode : Option Nat) : Except String (Option Nat) :=
  match mode with
  | none => .ok none
  | some n =>
    let ds := decDigits n
    if ds.all (fun d => d < 8) then .ok (some (Nat.ofDigits 8 ds))
    else .error "invalid permissions"

/-- The indentation string: `n` space characters. -/
def indent (n : Nat) : String := String.mk (List.replicate n ' ')

/-- The `println!("{: <1$}{name}: {status}", "", params.depth * 2, ...)`
line in `Task::run`: `depth * 2` spaces, the name, `": "`, the status. -/
def reportLine (depth : Nat) (name : String) (s : Status) : String :=
  indent (depth * 2) ++ name ++ ": " ++ s.display

mutual

/-- `enum TaskType` in `task.rs`. -/
inductive TaskType : Type where
  | Unknown : TaskType
  | Group : List Task → TaskType
  | copy : CopyTask → TaskType
  | symlink : SymlinkTask → TaskType
  | template : TemplateTask → TaskType
  | shell : ShellTask → TaskType

/-- `struct Task` in `task.rs` (`#[serde(flatten)]` merges the variant
into the node): `Task.mk name su variant` carries the reporting name, the
`su:`/`as_superuser` flag and the variant. -/
inductive Task : Type where
  | mk : String → Bool → TaskType → Task

end

/-- The `name` field of a `Task`. -/
def Task.name : Task → String
  | .mk n _ _ => n

/-- The `as_superuser` (`su`) field of a `Task`. -/
def Task.su : Task → Bool
  | .mk _ s _ => s

/-- The `variant` field of a `Task`. -/
def Task.variant : Task → TaskType
  | .mk _ _ v => v

/-- Whether a `TaskType` is the `Group` variant. -/
def TaskType.isGroup : TaskType → Bool
  | .Group _ => true
  | _ => false

/-- Result of one `Runnable::run` call: the returned `Status`, the
`Params` as left behind by the call, the report lines printed (in order),
the external effects performed (in order), and the number of task nodes
that were actually executed (one `println!` each). -/
structure RunOut where
  status : Status
  params : Params
  lines : List String
  effects : List Effect
  nodes : Nat
deriving DecidableEq, Repr

/-- Result of the Group arm's `tasks.iter().map(|t| t.run(params))
.find(|&s| s == Status::Failure)` pipeline: `found` records whether `find`
returned `Some(Failure)`; the traces cover only the children that the lazy
iterator actually ran. -/
structure GroupOut where
  found : Bool
  params : Params
  lines : List String
  effects : List Effect
  nodes : Nat
deriving DecidableEq, Repr

/-- `impl Runnable for CopyTask` in `task.rs`. -/
def CopyTask.runT (env : Env) (t : CopyTask) :
    Except String (Status × List Effect) :=
  let src := env.asset "files" t.src
  let dst := env.expandPath t.dst
  match create_valid_parent env dst with
  | .error e => .error e
  | .ok pe =>
    if env.copyOk src dst then
      match set_permissions env dst t.mode with
      | (true, se) => .ok (.Success, pe ++ .copyFile src dst :: se)
      | (false, se) => .ok (.Failure, pe ++ .copyFile src dst :: se)
    else .ok (.Failure, pe ++ [.copyFile src dst])

/-- `impl Runnable for SymlinkTask` in `task.rs`. -/
def SymlinkTask.runT (env : Env) (t : SymlinkTask) :
    Except String (Status × List Effect) :=
  let src := env.asset "files" t.src
  let dst := env.expandPath t.dst
  match create_valid_parent env dst with
  | .error e => .error e
  | .ok pe =>
    if env.symlinkOk src dst then .ok (.Success, pe ++ [.symlink src dst])
    else .ok (.Failure, pe ++ [.symlink src dst])

/-- `impl Runnable for TemplateTask` in `task.rs`: render first (an early
`return Status::Failure` on a render error, before any path resolution or
filesystem call), then ensure the parent, write, and apply permissions. -/
def TemplateTask.runT (env : Env) (t : TemplateTask) (context : Ctx) :
    Except String (Status × List Effect) :=
  match env.render t.src context with
  | none => .ok (.Failure, [.render t.src])
  | some text =>
    let dst := env.expandPath t.dst
    match create_valid_parent env dst with
    | .error e => .error e
    | .ok pe =>
      if env.writeOk dst then
        match set_permissions env dst t.mode with
        | (true, se) => .ok (.Success, .render t.src :: pe ++ .writeFile dst text :: se)
        | (false, se) => .ok (.Failure, .render t.src :: pe ++ .writeFile dst text :: se)
      else .ok (.Failure, .render t.src :: pe ++ [.writeFile dst text])

/-- `impl Runnable for ShellTask` in `task.rs`: `.status().expect(...)`
makes an unlaunchable interpreter a panic (`Except.error`), not a
`Status`; otherwise `Success` exactly for exit code 0. -/
def ShellTask.runT (env : Env) (t : ShellTask) :
    Except String (Status × List Effect) :=
  match env.shellLaunch t.cmd with
  | none => .error "failed to run shell command"
  | some code => .ok (if code = 0 then .Success else .Failure, [.shellExec t.cmd])

/-- Lift a leaf result into a `RunOut` (leaves neither print nor touch
`Params`; the enclosing `Task::run` prints). -/
def liftLeaf (p : Params) :
    Except String (Status × List Effect) → Except String RunOut
  | .error e => .error e
  | .ok (st, effs) => .ok ⟨st, p, [], effs, 0⟩

mutual

/-- `impl Runnable for Task` in `task.rs`: run the variant unless `su` is
set (then `Skipped` without running anything), then print exactly one
report line using the *current* `params.depth`, then return the status. -/
def Task.run (env : Env) : Task → Params → Except String RunOut
  | .mk name su variant, p =>
    match (if su then Except.ok (⟨.Skipped, p, [], [], 0⟩ : RunOut)
           else TaskType.runV env variant p) with
    | .error e => .error e
    | .ok r =>
      .ok { r with lines := r.lines ++ [reportLine r.params.depth name r.status],
                   nodes := r.nodes + 1 }

/-- `impl Runnable for TaskType` in `task.rs`.  The Group arm increments
`params.depth`, runs the lazy `map(run).find(== Failure)` pipeline,
takes `unwrap_or(Success)`, and decrements `params.depth`. -/
def TaskType.runV (env : Env) : TaskType → Params → Except String RunOut
  | .Unknown, p => .ok ⟨.Skipped, p, [], [], 0⟩
  | .Group ts, p =>
    match runList env ts ⟨p.context, p.depth + 1⟩ with
    | .error e => .error e
    | .ok g =>
      .ok ⟨if g.found then .Failure else .Success,
           ⟨g.params.context, g.params.depth - 1⟩,
           g.lines, g.effects, g.nodes⟩
  | .copy t, p => liftLeaf p (CopyTask.runT env t)
  | .symlink t, p => liftLeaf p (SymlinkTask.runT env t)
  | .template t, p => liftLeaf p (TemplateTask.runT env t p.context)
  | .shell t, p => liftLeaf p (ShellTask.runT env t)

/-- The Group arm's `tasks.iter().map(|t| t.run(params)).find(|&s| s ==
Status::Failure)`: because Rust iterators are lazy, `find` runs children
one by one and stops at the first `Failure`, so later siblings are never
run.  `found = true` means `find` returned `Some(Failure)`. -/
def runList (env : Env) : List Task → Params → Except String GroupOut
  | [], p => .ok ⟨false, p, [], [], 0⟩
  | t :: ts, p =>
    match Task.run env t p with
    | .error e => .error e
    | .ok r =>
      if r.status = .Failure then .ok ⟨true, r.params, r.lines, r.effects, r.nodes⟩
      else
        match runList env ts r.params with
        | .error e => .error e
        | .ok g =>
          .ok ⟨g.found, g.params, r.lines ++ g.lines,
               r.effects ++ g.effects, r.nodes + g.nodes⟩

end

/-- The fragment of `serde_yaml::Value` that `Task::parse_from_config`
inspects: strings, mappings (ordered key-value lists), sequences, and
anything else. -/
inductive Value : Type where
  | str : String → Value
  | mapping : List (Value × Value) → Value
  | seq : List Value → Value
  | other : Value

/-- `Value::as_str`. -/
def Value.as_str : Value → Option String
  | .str s => some s
  | _ => none

/-- `Value::as_sequence`. -/
def Value.as_sequence : Value → Option (List Value)
  | .seq l => some l
  | _ => none

/-- Oracle for `Task::load_from_file`: `taskFile name` is the result of
opening `tasks/<name>.yaml` and serde-parsing it as `Vec<Task>`; `none`
means opening or parsing failed (an `expect` panic). -/
structure LoadEnv where
  taskFile : String → Option (List Task)

/-- `Task::group` in `task.rs`: a named Group with `su = false`. -/
def Task.group (name : String) (tasks : List Task) : Task :=
  .mk name false (.Group tasks)

/-- `Task::load_from_file` in `task.rs`: both `expect`s are panics. -/
def load_from_file (env : LoadEnv) (task_name : String) : Except String Task :=
  match env.taskFile task_name with
  | none => .error "unable to open or parse task file"
  | some ts => .ok (Task.group task_name ts)

mutual

/-- `Task::parse_from_config` in `task.rs`: `config.as_sequence().unwrap()`
panics unless the value is a sequence; each entry is parsed by
`parseEntry`; the result is always `Task::group(task_name, tasks)`. -/
def parse_from_config (env : LoadEnv) (task_name : String) :
    Value → Except String Task
  | .seq entries =>
    match parseEntries env entries with
    | .error e => .error e
    | .ok tasks => .ok (Task.group task_name tasks)
  | _ => .error "as_sequence unwrap on non-sequence tasks value"

/-- The `.iter().map(...).collect()` over the entry sequence in
`Task::parse_from_config` (a panic in any entry propagates). -/
def parseEntries (env : LoadEnv) : List Value → Except String (List Task)
  | [] => .ok []
  | e :: rest =>
    match parseEntry env e with
    | .error err => .error err
    | .ok t =>
      match parseEntries env rest with
      | .error err => .error err
      | .ok ts => .ok (t :: ts)

/-- The per-entry `match` in `Task::parse_from_config`: a string loads an
external task file; a mapping takes its first key-value pair
(`m.iter().next().unwrap()`, a panic on an empty mapping;
`k.as_str().unwrap()`, a panic on a non-string key) and recurses;
anything else is an `Unknown` placeholder named "unknown". -/
def parseEntry (env : LoadEnv) : Value → Except String Task
  | .str s => load_from_file env s
  | .mapping [] => .error "next unwrap on empty mapping"
  | .mapping ((k, v) :: _) =>
    match k.as_str with
    | none => .error "as_str unwrap on non-string key"
    | some ks => parse_from_config env ks v
  | _ => .ok (.mk "unknown" false .Unknown)

end

/-! ### Concrete environments and inputs used by witnesses -/

/-- A benign concrete environment: every filesystem operation succeeds,
rendering fails (only used where that matters), and the shell command
`"exit 1"` exits with code 1 while every other command exits 0. -/
def env0 : Env where
  expandPath := id
  parentOf := fun _ => some "parent"
  isFile := fun _ => false
  pathExists := fun _ => true
  mkdirOk := fun _ => true
  asset := fun d p => d ++ "/" ++ p
  render := fun _ _ => none
  writeOk := fun _ => true
  setPermsOk := fun _ _ => true
  copyOk := fun _ _ => true
  symlinkOk := fun _ _ => true
  shellLaunch := fun c => if c = "exit 1" then some 1 else some 0

/-- Like `env0`, but the command interpreter cannot be launched at all. -/
def envNoShell : Env := { env0 with shellLaunch := fun _ => none }

/-- A shell task running `"exit 1"`, which fails under `env0`. -/
def childA : Task := .mk "a" false (.shell ⟨"exit 1"⟩)

/-- A symlink task that would succeed under `env0`. -/
def childB : Task := .mk "b" false (.symlink ⟨"b", "db"⟩)

/-- A Group whose first child is a failing shell command and whose second
child is a symlink that would succeed. -/
def gShortCircuit : Task := .mk "g" false (.Group [childA, childB])

/-- What running `gShortCircuit` under `env0` actually produces: the
failing shell child runs and is reported, the symlink child is never run
(its effect and line are absent, and only 2 of the 3 nodes execute). -/
def rShort : RunOut :=
  ⟨.Failure, ⟨[], 0⟩, ["  a: FAILURE", "g: FAILURE"],
   [.shellExec "exit 1"], 2⟩

/-- A copy task that succeeds under `env0`. -/
def tCopy : Task := .mk "c" false (.copy ⟨"f", "d", none⟩)

/-- The result of running `tCopy` under `env0` at depth 1. -/
def rCopy : RunOut :=
  ⟨.Success, ⟨[], 1⟩, ["  c: SUCCESS"], [.copyFile "files/f" "d"], 1⟩

/-- The result of running an empty Group named "g" at depth 5. -/
def rEmptyGroup : RunOut :=
  ⟨.Success, ⟨[], 5⟩, [reportLine 5 "g" .Success], [], 1⟩

/-- A loader oracle with no external task files. -/
def loadEnv0 : LoadEnv := ⟨fun _ => none⟩

/-! ### Helper lemmas -/

mutual

/-- Any `Task::run` that returns leaves `Params` exactly as it found
them (depth restored, context untouched). -/
theorem run_params (env : Env) (t : Task) (p : Params) (r : RunOut)
    (h : Task.run env t p = .ok r) : r.params = p := by
  cases t with
  | mk name su variant =>
    cases su with
    | true =>
      simp only [Task.run, if_true] at h
      cases h
      rfl
    | false =>
      simp only [Task.run, Bool.false_eq_true, if_false] at h
      cases hv : TaskType.runV env variant p with
      | error e => rw [hv] at h; cases h
      | ok r1 =>
        rw [hv] at h
        cases h
        exact runV_params env variant p r1 hv

/-- Any `TaskType::run` that returns leaves `Params` as it found them. -/
theorem runV_params (env : Env) (v : TaskType) (p : Params) (r : RunOut)
    (h : TaskType.runV env v p = .ok r) : r.params = p := by
  cases v with
  | Unknown => simp only [TaskType.runV] at h; cases h; rfl
  | Group ts =>
    simp only [TaskType.runV] at h
    cases hg : runList env ts ⟨p.context, p.depth + 1⟩ with
    | error e => rw [hg] at h; cases h
    | ok g =>
      rw [hg] at h
      cases h
      have hgp := runList_params env ts ⟨p.context, p.depth + 1⟩ g hg
      simp [hgp]
  | copy t =>
    simp only [TaskType.runV, liftLeaf] at h
    cases hl : CopyTask.runT env t with
    | error e => rw [hl] at h; cases h
    | ok s => rw [hl] at h; cases s; cases h; rfl
  | symlink t =>
    simp only [TaskType.runV, liftLeaf] at h
    cases hl : SymlinkTask.runT env t with
    | error e => rw [hl] at h; cases h
    | ok s => rw [hl] at h; cases s; cases h; rfl
  | template t =>
    simp only [TaskType.runV, liftLeaf] at h
    cases hl : TemplateTask.runT env t p.context with
    | error e => rw [hl] at h; cases h
    | ok s => rw [hl] at h; cases s; cases h; rfl
  | shell t =>
    simp only [TaskType.runV, liftLeaf] at h
    cases hl : ShellTask.runT env t with
    | error e => rw [hl] at h; cases h
    | ok s => rw [hl] at h; cases s; cases h; rfl

/-- The lazy child traversal leaves `Params` as it found them. -/
theorem runList_params (env : Env) (ts : List Task) (p : Params)
    (g : GroupOut) (h : runList env ts p = .ok g) : g.params = p := by
  match ts with
  | [] =>
    simp only [runList] at h
    cases h
    rfl
  | t :: ts' =>
    simp only [runList] at h
    cases hr : Task.run env t p with
    | error e => rw [hr] at h; cases h
    | ok r =>
      rw [hr] at h
      dsimp only at h
      have hrp : r.params = p := run_params env t p r hr
      by_cases hst : r.status = .Failure
      · rw [if_pos hst] at h
        cases h
        exact hrp
      · rw [if_neg hst] at h
        cases hg : runList env ts' r.params with
        | error e => rw [hg] at h; cases h
        | ok g1 =>
          rw [hg] at h
          cases h
          have := runList_params env ts' r.params g1 hg
          simp [this, hrp]

end

mutual

/-- Every executed task node prints exactly one line: the line trace of a
`Task::run` call is exactly as long as the number of nodes executed. -/
theorem run_lines_nodes (env : Env) (t : Task) (p : Params) (r : RunOut)
    (h : Task.run env t p = .ok r) : r.lines.length = r.nodes := by
  cases t with
  | mk name su variant =>
    cases su with
    | true =>
      simp only [Task.run, if_true] at h
      cases h
      rfl
    | false =>
      simp only [Task.run, Bool.false_eq_true, if_false] at h
      cases hv : TaskType.runV env variant p with
      | error e => rw [hv] at h; cases h
      | ok r1 =>
        rw [hv] at h
        cases h
        have := runV_lines_nodes env variant p r1 hv
        simp [this]

/-- Line/node counting for `TaskType::run`. -/
theorem runV_lines_nodes (env : Env) (v : TaskType) (p : Params) (r : RunOut)
    (h : TaskType.runV env v p = .ok r) : r.lines.length = r.nodes := by
  cases v with
  | Unknown => simp only [TaskType.runV] at h; cases h; rfl
  | Group ts =>
    simp only [TaskType.runV] at h
    cases hg : runList env ts ⟨p.context, p.depth + 1⟩ with
    | error e => rw [hg] at h; cases h
    | ok g =>
      rw [hg] at h
      cases h
      exact runList_lines_nodes env ts _ g hg
  | copy t =>
    simp only [TaskType.runV, liftLeaf] at h
    cases hl : CopyTask.runT env t with
    | error e => rw [hl] at h; cases h
    | ok s => rw [hl] at h; cases s; cases h; rfl
  | symlink t =>
    simp only [TaskType.runV, liftLeaf] at h
    cases hl : SymlinkTask.runT env t with
    | error e => rw [hl] at h; cases h
    | ok s => rw [hl] at h; cases s; cases h; rfl
  | template t =>
    simp only [TaskType.runV, liftLeaf] at h
    cases hl : TemplateTask.runT env t p.context with
    | error e => rw [hl] at h; cases h
    | ok s => rw [hl] at h; cases s; cases h; rfl
  | shell t =>
    simp only [TaskType.runV, liftLeaf] at h
    cases hl : ShellTask.runT env t with
    | error e => rw [hl] at h; cases h
    | ok s => rw [hl] at h; cases s; cases h; rfl

/-- Line/node counting for the lazy child traversal. -/
theorem runList_lines_nodes (env : Env) (ts : List Task) (p : Params)
    (g : GroupOut) (h : runList env ts p = .ok g) :
    g.lines.length = g.nodes := by
  match ts with
  | [] =>
    simp only [runList] at h
    cases h
    rfl
  | t :: ts' =>
    simp only [runList] at h
    cases hr : Task.run env t p with
    | error e => rw [hr] at h; cases h
    | ok r =>
      rw [hr] at h
      dsimp only at h
      by_cases hst : r.status = .Failure
      · rw [if_pos hst] at h
        cases h
        exact run_lines_nodes env t p r hr
      · rw [if_neg hst] at h
        cases hg : runList env ts' r.params with
        | error e => rw [hg] at h; cases h
        | ok g1 =>
          rw [hg] at h
          cases h
          have h1 := run_lines_nodes env t p r hr
          have h2 := runList_lines_nodes env ts' r.params g1 hg
          simp [List.length_append, h1, h2]

end

/-- The report line of a `Task::run` call is printed last, after all lines
of the children, at indentation depth equal to the entry `params.depth`,
and carries the task's name and its final status. -/
theorem run_last_line (env : Env) (t : Task) (p : Params) (r : RunOut)
    (h : Task.run env t p = .ok r) :
    r.lines.getLast? = some (reportLine p.depth t.name r.status) := by
  cases t with
  | mk name su variant =>
    cases su with
    | true =>
      simp only [Task.run, if_true] at h
      cases h
      rfl
    | false =>
      simp only [Task.run, Bool.false_eq_true, if_false] at h
      cases hv : TaskType.runV env variant p with
      | error e => rw [hv] at h; cases h
      | ok r1 =>
        rw [hv] at h
        cases h
        have hp := runV_params env variant p r1 hv
        simp [Task.name, hp]

/-- Semantics of the `map(run).find(== Failure)` pipeline: it reports a
`Failure` exactly when some direct child's run (from the Group's child
`Params`) returns `Failure`.  (Because the traversal threads `Params`
through, and every run restores them, each child is run from the same
`Params` the traversal started with.) -/
theorem runList_found (env : Env) (ts : List Task) (p : Params)
    (g : GroupOut) (h : runList env ts p = .ok g) :
    (g.found = true ↔
      ∃ t ∈ ts, ∃ r, Task.run env t p = .ok r ∧ r.status = .Failure) := by
  induction ts generalizing g with
  | nil =>
    simp only [runList] at h
    cases h
    simp
  | cons t ts ih =>
    simp only [runList] at h
    cases hr : Task.run env t p with
    | error e => rw [hr] at h; cases h
    | ok r =>
      rw [hr] at h
      dsimp only at h
      by_cases hst : r.status = .Failure
      · rw [if_pos hst] at h
        cases h
        constructor
        · intro _
          exact ⟨t, List.mem_cons_self t ts, r, hr, hst⟩
        · intro _
          rfl
      · rw [if_neg hst] at h
        cases hg : runList env ts r.params with
        | error e => rw [hg] at h; cases h
        | ok g1 =>
          rw [hg] at h
          cases h
          have hrp : r.params = p := run_params env t p r hr
          rw [hrp] at hg
          have ih1 := ih g1 hg
          dsimp only
          rw [ih1]
          constructor
          · rintro ⟨t1, ht1, r1, hr1, hf1⟩
            exact ⟨t1, List.mem_cons_of_mem t ht1, r1, hr1, hf1⟩
          · rintro ⟨t1, ht1, r1, hr1, hf1⟩
            rcases List.mem_cons.mp ht1 with rfl | ht1
            · rw [hr] at hr1
              cases hr1
              exact absurd hf1 hst
            · exact ⟨t1, ht1, r1, hr1, hf1⟩

/-- The fuel-based decimal digit function agrees with `Nat.digits 10`
whenever the fuel suffices. -/
theorem decDigitsAux_eq (fuel n : Nat) (h : n ≤ fuel) :
    decDigitsAux fuel n = Nat.digits 10 n := by
  induction fuel generalizing n with
  | zero =>
    have hn : n = 0 := by omega
    subst hn
    simp [decDigitsAux]
  | succ f ih =>
    by_cases hn : n = 0
    · subst hn
      simp [decDigitsAux]
    · rw [decDigitsAux, if_neg hn]
      have hdiv : n / 10 ≤ f := by
        have h1 : n / 10 < n := Nat.div_lt_self (Nat.pos_of_ne_zero hn) (by norm_num)
        omega
      rw [ih (n / 10) hdiv,
          Nat.digits_def' (by norm_num : 1 < 10) (Nat.pos_of_ne_zero hn)]

/-- `decDigits` computes the decimal digits, least significant first. -/
theorem decDigits_eq (n : Nat) : decDigits n = Nat.digits 10 n :=
  decDigitsAux_eq n n le_rfl

/-- A successful `Task::parse_from_config` always yields a Group with the
given name and `su = false`, whatever the key was. -/
theorem parse_always_group (env : LoadEnv) (n : String) (c : Value) (t : Task)
    (h : parse_from_config env n c = .ok t) :
    ∃ cs, t = .mk n false (.Group cs) := by
  cases c with
  | seq entries =>
    simp only [parse_from_config] at h
    cases he : parseEntries env entries with
    | error e => rw [he] at h; cases h
    | ok ts => rw [he] at h; cases h; exact ⟨ts, rfl⟩
  | str s => simp [parse_from_config] at h
  | mapping m => simp [parse_from_config] at h
  | other => simp [parse_from_config] at h

/-! ### Claim theorems -/

/-- C4: a task whose `su` flag is true, of any variant, returns `Skipped`
without invoking the variant's operation: its `Params` are untouched, the
only output is its own `SKIPPED` report line, and its effect trace is
empty — no filesystem operation, process launch or template render. -/
theorem c4_privileged_skipped (env : Env) (name : String) (v : TaskType)
    (p : Params) :
    Task.run env (.mk name true v) p =
      .ok ⟨.Skipped, p, [reportLine p.depth name .Skipped], [], 1⟩ := rfl

/-- C10: a privileged Group skips its entire subtree: no descendant is
executed or reported (one node, one `SKIPPED` line, no effects) and
`params.depth` is not changed. -/
theorem c10_privileged_group_subtree (env : Env) (name : String)
    (ts : List Task) (p : Params) :
    Task.run env (.mk name true (.Group ts)) p =
      .ok ⟨.Skipped, p, [reportLine p.depth name .Skipped], [], 1⟩ := rfl

/-- C1: contrary to the claim, a Group does NOT run every child once an
earlier child fails: the Rust `tasks.iter().map(|t| t.run(params))
.find(|&s| s == Status::Failure)` pipeline is lazy, so `find` stops at
the first `Failure`.  Running `gShortCircuit` (failing shell child `a`
followed by a symlink child `b` that would succeed) executes and reports
only `a` and the Group itself: the trace has no symlink effect and no
line for `b`, and only 2 of the 3 task nodes run. -/
theorem c1_group_short_circuits :
    Task.run env0 gShortCircuit ⟨[], 0⟩ = .ok rShort := rfl

/-- C7: after a Group's run completes, `params.depth` equals its value
before the run, and the context — the only other field of the execution
parameters — is unchanged. -/
theorem c7_depth_restored (env : Env) (name : String) (su : Bool)
    (ts : List Task) (p : Params) (r : RunOut)
    (h : Task.run env (.mk name su (.Group ts)) p = .ok r) :
    r.params.depth = p.depth ∧ r.params.context = p.context := by
  have hp := run_params env _ p r h
  rw [hp]
  exact ⟨rfl, rfl⟩

/-- Witness for C7 at a concrete empty Group run at depth 5. -/
theorem c7_witness : rEmptyGroup.params.depth = 5 ∧ rEmptyGroup.params.context = [] :=
  c7_depth_restored env0 "g" false [] ⟨[], 5⟩ rEmptyGroup rfl

/-- C8: `parse_permissions` keeps an absent mode absent; it accepts a
mode value whose (decimal) digits are all octal digits, yielding the
number those digits denote in base 8 (so `644` yields `0o644 = 420`), and
rejects any value containing a digit 8 or 9 as a load-time configuration
error.  (A non-numeral is already rejected by the preceding `Option<u32>`
deserialization, also at load time.) -/
theorem c8_parse_permissions :
    parse_permissions none = .ok none
    ∧ parse_permissions (some 644) = .ok (some 420)
    ∧ (∀ n : Nat, (∀ d ∈ Nat.digits 10 n, d < 8) →
        parse_permissions (some n) = .ok (some (Nat.ofDigits 8 (Nat.digits 10 n))))
    ∧ (∀ n : Nat, (∃ d ∈ Nat.digits 10 n, 8 ≤ d) →
        parse_permissions (some n) = .error "invalid permissions") := by
  refine ⟨rfl, rfl, ?_, ?_⟩
  · intro n hall
    simp only [parse_permissions, decDigits_eq]
    rw [if_pos]
    rw [List.all_eq_true]
    intro d hd
    simpa using hall d hd
  · rintro n ⟨d, hd, h8⟩
    simp only [parse_permissions, decDigits_eq]
    rw [if_neg]
    intro hall
    rw [List.all_eq_true] at hall
    have := hall d hd
    simp at this
    omega

/-- Witness for C8: `648` contains the digit 8 and is rejected. -/
theorem c8_witness :
    parse_permissions (some 648) = .error "invalid permissions" :=
  c8_parse_permissions.2.2.2 648
    ⟨8, by rw [← decDigits_eq]; decide, by norm_num⟩

/-- C2: a non-privileged Group returns `Failure` exactly when some direct
child's run (from the Group's child `Params`) returns `Failure`, and
`Success` otherwise; an empty Group returns `Success`, and the aggregate
is never `Skipped`. -/
theorem c2_group_status (env : Env) (name : String) (ts : List Task)
    (p : Params) (r : RunOut)
    (h : Task.run env (.mk name false (.Group ts)) p = .ok r) :
    (r.status = .Failure ↔
      ∃ t ∈ ts, ∃ r1, Task.run env t ⟨p.context, p.depth + 1⟩ = .ok r1
        ∧ r1.status = .Failure)
    ∧ (ts = [] → r.status = .Success)
    ∧ r.status ≠ .Skipped := by
  simp only [Task.run, Bool.false_eq_true, if_false, TaskType.runV] at h
  cases hg : runList env ts ⟨p.context, p.depth + 1⟩ with
  | error e => rw [hg] at h; cases h
  | ok g =>
    rw [hg] at h
    dsimp only at h
    cases h
    have hf := runList_found env ts ⟨p.context, p.depth + 1⟩ g hg
    refine ⟨?_, ?_, ?_⟩
    · cases hgf : g.found with
      | true =>
        rw [hgf] at hf
        simp only [hgf, if_true]
        simpa using hf
      | false =>
        rw [hgf] at hf
        simp only [hgf, Bool.false_eq_true, if_false]
        constructor
        · intro hcontra
          exact absurd hcontra (by simp)
        · intro hex
          exact absurd (hf.mpr hex) (by simp)
    · rintro rfl
      simp only [runList] at hg
      cases hg
      rfl
    · cases hgf : g.found <;> simp [hgf]

/-- Witness for C2: the Group `gShortCircuit` has a failing child, and
its aggregate status is indeed `Failure`. -/
theorem c2_witness : rShort.status = .Failure :=
  ((c2_group_status env0 "g" [childA, childB] ⟨[], 0⟩ rShort rfl).1).mpr
    ⟨childA, List.mem_cons_self childA [childB],
     ⟨.Failure, ⟨[], 1⟩, ["  a: FAILURE"], [.shellExec "exit 1"], 1⟩,
     rfl, rfl⟩

/-- C9: every executed task node prints exactly one report line (line
count equals executed-node count), printed after its status is known (it
is the last line of the node's trace), of the form
`<indent><name>: <STATUS>` where the indent is `2 * depth` spaces at the
node's entry depth; the children of a non-privileged Group are run — and
hence report — at depth one greater, their lines preceding the Group's
own line. -/
theorem c9_report_lines (env : Env) (t : Task) (p : Params) (r : RunOut)
    (h : Task.run env t p = .ok r) :
    r.lines.getLast? = some (reportLine p.depth t.name r.status)
    ∧ r.lines.length = r.nodes
    ∧ reportLine p.depth t.name r.status
        = indent (p.depth * 2) ++ t.name ++ ": " ++ r.status.display
    ∧ (∀ nm ts, t = .mk nm false (.Group ts) →
        ∃ g, runList env ts ⟨p.context, p.depth + 1⟩ = .ok g
          ∧ r.lines = g.lines ++ [reportLine p.depth nm r.status]) := by
  refine ⟨run_last_line env t p r h, run_lines_nodes env t p r h, rfl, ?_⟩
  rintro nm ts rfl
  simp only [Task.run, Bool.false_eq_true, if_false, TaskType.runV] at h
  cases hg : runList env ts ⟨p.context, p.depth + 1⟩ with
  | error e => rw [hg] at h; cases h
  | ok g =>
    rw [hg] at h
    dsimp only at h
    cases h
    refine ⟨g, rfl, ?_⟩
    have hgp := runList_params env ts ⟨p.context, p.depth + 1⟩ g hg
    simp [hgp]

/-- Witness for C9 at a concrete successful copy leaf at depth 1. -/
theorem c9_witness :
    rCopy.lines.getLast? = some (reportLine 1 "c" rCopy.status) :=
  (c9_report_lines env0 tCopy ⟨[], 1⟩ rCopy rfl).1

/-- C5: a Template task whose render fails returns `Failure` having
performed only the render call — no parent-directory creation, no write,
no permission application; and when the render succeeds, a failing write
or a failing permission application also yields `Failure`. -/
theorem c5_template_failures (env : Env) (t : TemplateTask) (ctx : Ctx) :
    (env.render t.src ctx = none →
      TemplateTask.runT env t ctx = .ok (.Failure, [.render t.src]))
    ∧ (∀ text st effs, env.render t.src ctx = some text →
        TemplateTask.runT env t ctx = .ok (st, effs) →
        ((env.writeOk (env.expandPath t.dst) = false → st = .Failure)
         ∧ ∀ m, t.mode = some m →
             env.setPermsOk (env.expandPath t.dst) m = false →
             st = .Failure)) := by
  constructor
  · intro h
    simp [TemplateTask.runT, h]
  · intro text st effs hr h
    simp only [TemplateTask.runT, hr] at h
    cases hcp : create_valid_parent env (env.expandPath t.dst) with
    | error e => rw [hcp] at h; cases h
    | ok pe =>
      rw [hcp] at h
      dsimp only at h
      constructor
      · intro hw
        rw [hw] at h
        simp only [Bool.false_eq_true, if_false] at h
        cases h
        rfl
      · intro m hm hsp
        rw [hm] at h
        simp only [set_permissions, hsp] at h
        by_cases hw : env.writeOk (env.expandPath t.dst)
        · rw [hw] at h
          simp only [if_true] at h
          cases h
          rfl
        · rw [Bool.not_eq_true] at hw
          rw [hw] at h
          simp only [Bool.false_eq_true, if_false] at h
          cases h
          rfl

/-- Witness for C5: under `env0` every render fails, so a concrete
template task fails with only the render call in its trace. -/
theorem c5_witness :
    TemplateTask.runT env0 ⟨"tpl", "dst", none⟩ [] =
      .ok (.Failure, [.render "tpl"]) :=
  (c5_template_failures env0 ⟨"tpl", "dst", none⟩ []).1 rfl

/-- C6: a non-privileged Shell task returns `Success` exactly for exit
code 0 and `Failure` for every non-zero exit code; an interpreter that
cannot be launched at all aborts the whole run (`Except.error`, the
`expect` panic) instead of producing a `Failure` status. -/
theorem c6_shell_status (env : Env) (nm : String) (t : ShellTask)
    (p : Params) :
    (env.shellLaunch t.cmd = none →
      Task.run env (.mk nm false (.shell t)) p =
        .error "failed to run shell command")
    ∧ (∀ code, env.shellLaunch t.cmd = some code →
        Task.run env (.mk nm false (.shell t)) p =
          .ok ⟨if code = 0 then .Success else .Failure, p,
               [reportLine p.depth nm
                  (if code = 0 then .Success else .Failure)],
               [.shellExec t.cmd], 1⟩) := by
  constructor
  · intro h
    simp [Task.run, TaskType.runV, ShellTask.runT, liftLeaf, h]
  · intro code h
    simp only [Task.run, Bool.false_eq_true, if_false, TaskType.runV,
      ShellTask.runT, liftLeaf, h]
    by_cases hc : code = 0 <;> simp [hc, List.nil_append]

/-- Witness for C6: an unlaunchable interpreter is a fatal abort. -/
theorem c6_witness :
    Task.run envNoShell (.mk "s" false (.shell ⟨"x"⟩)) ⟨[], 0⟩ =
      .error "failed to run shell command" :=
  (c6_shell_status envNoShell "s" ⟨"x"⟩ ⟨[], 0⟩).1 rfl

/-- C3 (counterexample): in `Task::parse_from_config` a single-key
mapping whose key names a leaf kind does NOT produce a leaf task — the
value is unconditionally re-parsed as a task-entry sequence, so the
ordinary leaf body `{copy: {src, dst}}` hits
`config.as_sequence().unwrap()` and is a fatal parse error. -/
theorem c3_counterexample :
    parse_from_config loadEnv0 "main"
      (.seq [.mapping [(.str "copy",
        .mapping [(.str "src", .str "a"), (.str "dst", .str "b")])]])
      = .error "as_sequence unwrap on non-sequence tasks value" := rfl

/-- C3 (amended): a single-key mapping entry `{K: V}` is handled
identically for every key `K`, leaf kind or not: `V` must itself be a
task-entry sequence, the entry contributes `parse_from_config K V` — a
Group named `K` with `su = false` — and the surrounding parse yields the
Group of all entries; a `V` that is not a sequence is a fatal parse
error, never a leaf task. -/
theorem c3_mapping_entry (env : LoadEnv) (name k : String) (v : Value)
    (kvs : List (Value × Value)) (rest : List Value) (g : Task)
    (h : parse_from_config env name
          (.seq (.mapping ((.str k, v) :: kvs) :: rest)) = .ok g) :
    (∀ t1, parse_from_config env k v = .ok t1 →
      t1.name = k ∧ t1.su = false ∧ t1.variant.isGroup = true)
    ∧ (∀ t1 ts, parse_from_config env k v = .ok t1 →
        parseEntries env rest = .ok ts →
        g = .mk name false (.Group (t1 :: ts)))
    ∧ (∀ e, parse_from_config env k v ≠ .error e) := by
  simp only [parse_from_config, parseEntries, parseEntry, Value.as_str] at h
  cases hp : parse_from_config env k v with
  | error e => rw [hp] at h; cases h
  | ok t1 =>
    rw [hp] at h
    dsimp only at h
    cases hrest : parseEntries env rest with
    | error e => rw [hrest] at h; cases h
    | ok ts =>
      rw [hrest] at h
      dsimp only at h
      cases h
      obtain ⟨cs, rfl⟩ := parse_always_group env k v t1 hp
      refine ⟨?_, ?_, ?_⟩
      · intro t1' h1
        cases h1
        exact ⟨rfl, rfl, rfl⟩
      · intro t1' ts' h1 h2
        cases h1
        cases h2
        rfl
      · intro e h1
        cases h1

/-- Witness for C3's amended theorem: a non-leaf key `"apps"` with a
sequence value parses to a Group named `"apps"`. -/
theorem c3_witness :
    (Task.mk "apps" false (.Group [])).name = "apps"
    ∧ (Task.mk "apps" false (.Group [])).su = false
    ∧ (Task.mk "apps" false (.Group [])).variant.isGroup = true :=
  (c3_mapping_entry loadEnv0 "main" "apps" (.seq []) [] [] _ rfl).1 _ rfl

end Zapp
